import Mathlib

/-!
Verification development for the GovPulse / politeping endpoint monitor.

The definitions below are a shallow embedding of the Python sources under
`src/politeping/app/` (`rate_limit.py`, `robots.py`, `checker.py`).  Network
I/O, the Unicode library (`unicodedata.normalize`, `str.lower` on arbitrary
text), HTML `<title>` extraction and the `re` regex engine are external
collaborators of the embedded core; they enter the model as explicit oracle
parameters (`Oracle`, `PyEnv`, `FetchOutcome`), while every decision the
repository's own code makes (classification, rate limiting, robots parsing
and matching, hashing, truncation, keyword scanning) is translated directly
from the source.  Times are modelled as exact rationals.
-/

namespace GovPulse

/-! ## Character and string utilities (models of the Python primitives used) -/

/-- The set of characters matched by Python's `str.isspace` / `re` `\s`
on `str` (the whitespace notion used by `strip()` and `re.sub(r"\s+", ...)`). -/
def pyIsSpace (c : Char) : Bool :=
  ([9, 10, 11, 12, 13, 28, 29, 30, 31, 32, 133, 160, 5760,
    8192, 8193, 8194, 8195, 8196, 8197, 8198, 8199, 8200, 8201, 8202,
    8232, 8233, 8239, 8287, 12288] : List Nat).contains c.toNat

/-- ASCII case mapping; models Python `str.lower` on the ASCII-only strings
the code lowercases internally (robots directives, decision tags). -/
def asciiLowerChar (c : Char) : Char :=
  if 'A' ≤ c ∧ c ≤ 'Z' then Char.ofNat (c.toNat + 32) else c

/-- ASCII lowercasing of a string. -/
def asciiLower (s : String) : String := String.mk (s.data.map asciiLowerChar)

/-- Python slice `s[:n]` (by characters, exactly as Python slices `str`). -/
def strTake (s : String) (n : Nat) : String := String.mk (s.data.take n)

/-- Python slice `s[n:]`. -/
def strDrop (s : String) (n : Nat) : String := String.mk (s.data.drop n)

/-- Python `suffix in s` test specialised to prefix position is
`List.isPrefixOf`; this is the general substring test `sub in s`. -/
def listHasSub (sub : List Char) : List Char → Bool
  | [] => sub.isEmpty
  | c :: t => sub.isPrefixOf (c :: t) || listHasSub sub t

/-- Python substring containment `sub in s`. -/
def strHasSub (sub s : String) : Bool := listHasSub sub.data s.data

/-- Python `s.startswith(p)`. -/
def strStartsWith (s p : String) : Bool := p.data.isPrefixOf s.data

/-- Python `s.endswith(p)`. -/
def strEndsWith (s p : String) : Bool := p.data.isSuffixOf s.data

/-- Drop everything up to and including the first occurrence of `seg`;
`none` when `seg` does not occur.  This is the engine of both the
`://` URL split and the robots `*`-glob matcher. -/
def dropAfterOcc (seg : List Char) : List Char → Option (List Char)
  | [] => if seg.isEmpty then some [] else none
  | c :: cs =>
    if seg.isPrefixOf (c :: cs) then some ((c :: cs).drop seg.length)
    else dropAfterOcc seg cs

/-- Split a character list on a separator character (Python `s.split(sep)`). -/
def splitOnCharAux (sep : Char) : List Char → List Char → List String
  | acc, [] => [String.mk acc.reverse]
  | acc, c :: cs =>
    if c = sep then String.mk acc.reverse :: splitOnCharAux sep [] cs
    else splitOnCharAux sep (c :: acc) cs

/-- Python `s.split(sep)` for a one-character separator. -/
def splitOnChar (sep : Char) (s : String) : List String :=
  splitOnCharAux sep [] s.data

/-- `l.takeWhile (· ≠ c)`: Python `s.split(c, 1)[0]`. -/
def takeUntilChar (c : Char) (l : List Char) : List Char :=
  l.takeWhile (fun d => d != c)

/-- Python `s.split(c, 1)[1]`: everything after the first `c`. -/
def dropPastChar (c : Char) (l : List Char) : List Char :=
  (l.dropWhile (fun d => d != c)).drop 1

/-- Python `str.strip()` from the left. -/
def stripL (l : List Char) : List Char := l.dropWhile pyIsSpace

/-- Removal of trailing Python whitespace. -/
def stripR : List Char → List Char
  | [] => []
  | c :: cs =>
    match stripR cs with
    | [] => if pyIsSpace c then [] else [c]
    | r => c :: r

/-- Python `str.strip()` (both ends). -/
def pyStripList (l : List Char) : List Char := stripR (stripL l)

/-- Python `str.strip()` on strings. -/
def pyStrip (s : String) : String := String.mk (pyStripList s.data)

/-- `re.sub(r"\s+", " ", ·)`: each maximal whitespace run becomes one space.
The boolean flag records whether the previous character was whitespace. -/
def collapseAux : Bool → List Char → List Char
  | _, [] => []
  | prevWs, c :: cs =>
    if pyIsSpace c then
      if prevWs then collapseAux true cs
      else ' ' :: collapseAux true cs
    else c :: collapseAux false cs

/-- The whitespace-normalization step of `Checker._normalize_text`:
`re.sub(r"\s+", " ", text).strip()`. -/
def collapseWs (s : String) : String :=
  String.mk (pyStripList (collapseAux false s.data))

/-! ## URL parsing (model of `urllib.parse.urlparse` on absolute http URLs) -/

/-- The characters after `://`, or `[]` when the URL has no scheme part. -/
def urlRest (url : String) : List Char :=
  match dropAfterOcc [':', '/', '/'] url.data with
  | some r => r
  | none => []

/-- `urlparse(url).netloc` for an absolute `http(s)://` URL. -/
def urlNetloc (url : String) : String :=
  String.mk (urlRest url |>.takeWhile (fun c => c != '/' && c != '?' && c != '#'))

/-- `urlparse(url).path` for an absolute `http(s)://` URL. -/
def urlPath (url : String) : String :=
  String.mk ((urlRest url |>.dropWhile (fun c => c != '/' && c != '?' && c != '#')).takeWhile
    (fun c => c != '?' && c != '#'))

/-! ## `rate_limit.py` — `RateState`

The two `defaultdict(float)` timestamp maps become total maps with default 0.
The semaphores (`global_sem`, `host_sems`) guard concurrency only and carry no
timing information, so they are outside the embedded state. -/

/-- The timing part of `rate_limit.RateState`. -/
structure RateState where
  last_host_check : String → ℚ
  last_ep_check : String → ℚ

/-- `RateState.allowed_now`; `now` is the value of `time.monotonic()` at the
call. -/
def allowed_now (r : RateState) (now : ℚ) (host ep_key : String)
    (host_interval ep_interval : ℚ) : Bool :=
  decide (now - r.last_host_check host ≥ host_interval) &&
  decide (now - r.last_ep_check ep_key ≥ ep_interval)

/-- `RateState.mark`; `now` is the value of `time.monotonic()` at the call. -/
def rateMark (r : RateState) (now : ℚ) (host ep_key : String) : RateState :=
  { last_host_check := fun k => if k = host then now else r.last_host_check k,
    last_ep_check := fun k => if k = ep_key then now else r.last_ep_check k }

/-! ## `robots.py` -/

/-- A cached robots record: `{"policy": …, "allows": …, "disallows": …}`. -/
structure RobotsRec where
  policy : String
  allows : List String
  disallows : List String
deriving DecidableEq

/-- `_TTL = 24 * 60 * 60`. -/
def robotsTTL : ℚ := 24 * 60 * 60

/-- `_rule_to_re` compiles `re.escape(rule).replace("\\*", ".*")` anchored at
the start and then `search`es the path.  Equivalently: the rule split on `*`
must match as first-segment prefix followed by the remaining segments in
order.  `ruleMatches` realises exactly that matching relation. -/
def matchSegsFrom : List (List Char) → List Char → Bool
  | [], _ => true
  | s :: ss, p =>
    match dropAfterOcc s p with
    | none => false
    | some p' => matchSegsFrom ss p'

/-- Whether the anchored glob regex of `_rule_to_re rule` matches `path`. -/
def ruleMatches (rule path : String) : Bool :=
  match (splitOnChar '*' rule).map String.data with
  | [] => true
  | s :: ss => s.isPrefixOf path.data && matchSegsFrom ss (path.data.drop s.length)

/-- `_longest_match`: length of the longest matching rule, `-1` when none. -/
def longestMatch (path : String) (rules : List String) : Int :=
  rules.foldl (fun best r =>
    if ruleMatches r path then max best (Int.ofNat r.length) else best) (-1)

/-- `_allowed`. -/
def robotsAllowed (path : String) (allows disallows : List String) : Bool :=
  let a := longestMatch path allows
  let d := longestMatch path disallows
  if a < 0 ∧ d < 0 then true else decide (a ≥ d)

/-- Python `str.splitlines` boundaries. -/
def isLineBreak (c : Char) : Bool :=
  ([10, 13, 11, 12, 28, 29, 30, 133, 8232, 8233] : List Nat).contains c.toNat

/-- Python `str.splitlines`, fuelled by the input length (each step consumes
at least one character, so `fuel = input.length` is always enough). -/
def splitlinesF : Nat → List Char → List Char → List String
  | _, acc, [] => if acc.isEmpty then [] else [String.mk acc.reverse]
  | 0, acc, _ => [String.mk acc.reverse]
  | fuel + 1, acc, c :: cs =>
    if c = '\r' then
      String.mk acc.reverse ::
        splitlinesF fuel [] (if cs.head? = some '\n' then cs.tail else cs)
    else if isLineBreak c then String.mk acc.reverse :: splitlinesF fuel [] cs
    else splitlinesF fuel (c :: acc) cs

/-- Python `txt.splitlines()`. -/
def pySplitlines (txt : String) : List String :=
  splitlinesF txt.data.length [] txt.data

/-- One directive line of `_parse`: returns the accumulated
(`in_star`, allows, disallows) update. -/
def parseLines : Bool → List String → List String × List String
  | _, [] => ([], [])
  | in_star, line :: rest =>
    let l := pyStrip (String.mk (takeUntilChar '#' line.data))
    if l = "" then parseLines in_star rest
    else if ¬ l.data.contains ':' then parseLines in_star rest
    else
      let k := asciiLower (pyStrip (String.mk (takeUntilChar ':' l.data)))
      let v := pyStrip (String.mk (dropPastChar ':' l.data))
      if k = "user-agent" then parseLines (v = "*") rest
      else if in_star ∧ (k = "allow" ∨ k = "disallow") then
        if v = "" then parseLines in_star rest
        else
          let (as_, ds) := parseLines in_star rest
          if k = "allow" then (v :: as_, ds) else (as_, v :: ds)
      else parseLines in_star rest

/-- `_parse`: collect the `User-agent: *` block's Allow/Disallow rules. -/
def parseRobots (txt : String) : RobotsRec :=
  let (as_, ds) := parseLines false (pySplitlines txt)
  { policy := "parsed", allows := as_, disallows := ds }

/-- Outcome of the `client.get(robots_url)` call: an HTTP response or a raised
network exception. -/
inductive FetchOutcome where
  | ok (status : Nat) (text : String)
  | exn
deriving DecidableEq

/-- The record built from a fetch outcome (lines 52-60 of `robots.py`). -/
def robotsRecOfFetch : FetchOutcome → RobotsRec
  | .ok status text =>
    if status = 200 then parseRobots text
    else if status = 404 then { policy := "allow", allows := [], disallows := [] }
    else { policy := "unknown", allows := [], disallows := [] }
  | .exn => { policy := "unknown", allows := [], disallows := [] }

/-- The decision phase of `check_robots_allow` (lines 63-70). -/
def robotsDecide (rb : RobotsRec) (path : String) : String :=
  if rb.policy = "parsed" then
    if robotsAllowed path rb.allows rb.disallows then "ALLOW" else "DISALLOW"
  else if rb.policy = "allow" then "ALLOW"
  else if rb.policy = "unknown" then "UNKNOWN"
  else "ALLOW"

/-- The module-level `_CACHE`. -/
def RobotsCache : Type := String → Option (ℚ × RobotsRec)

/-- `check_robots_allow`.  `now` is `time.time()` at the call; `fetch` is the
outcome the network would deliver if the cache does not short-circuit it.
Returns the decision string and the updated cache. -/
def check_robots_allow (cache : RobotsCache) (now : ℚ) (url : String)
    (fetch : FetchOutcome) : String × RobotsCache :=
  let host := urlNetloc url
  let path := if urlPath url = "" then "/" else urlPath url
  match cache host with
  | some (t, r) =>
    if now - t < robotsTTL then (robotsDecide r path, cache)
    else
      let rb := robotsRecOfFetch fetch
      (robotsDecide rb path, fun h => if h = host then some (now, rb) else cache h)
  | none =>
    let rb := robotsRecOfFetch fetch
    (robotsDecide rb path, fun h => if h = host then some (now, rb) else cache h)

/-! ## SHA-256 (model of `hashlib.sha256(..).hexdigest()`)

Executable byte-level SHA-256 over `Nat` words reduced mod `2^32`, used by
the content-hash claims.  `utf8Encode` models `str.encode("utf-8")`
(`errors="ignore"` is vacuous: Lean `Char` holds only Unicode scalar values).
-/

/-- UTF-8 encoding of one scalar value. -/
def utf8EncodeChar (c : Char) : List Nat :=
  let n := c.toNat
  if n < 128 then [n]
  else if n < 2048 then [192 ||| (n >>> 6), 128 ||| (n &&& 63)]
  else if n < 65536 then
    [224 ||| (n >>> 12), 128 ||| ((n >>> 6) &&& 63), 128 ||| (n &&& 63)]
  else
    [240 ||| (n >>> 18), 128 ||| ((n >>> 12) &&& 63),
     128 ||| ((n >>> 6) &&& 63), 128 ||| (n &&& 63)]

/-- `s.encode("utf-8", errors="ignore")` as a byte list. -/
def utf8Encode (s : String) : List Nat := (s.data.map utf8EncodeChar).flatten

/-- Truncation to 32 bits. -/
def w32 (n : Nat) : Nat := n % 4294967296

/-- 32-bit right rotation. -/
def rotr32 (x n : Nat) : Nat := ((x >>> n) ||| (x <<< (32 - n))) % 4294967296

/-- SHA-256 Σ₀. -/
def bsig0 (x : Nat) : Nat := rotr32 x 2 ^^^ rotr32 x 13 ^^^ rotr32 x 22

/-- SHA-256 Σ₁. -/
def bsig1 (x : Nat) : Nat := rotr32 x 6 ^^^ rotr32 x 11 ^^^ rotr32 x 25

/-- SHA-256 σ₀. -/
def ssig0 (x : Nat) : Nat := rotr32 x 7 ^^^ rotr32 x 18 ^^^ (x >>> 3)

/-- SHA-256 σ₁. -/
def ssig1 (x : Nat) : Nat := rotr32 x 17 ^^^ rotr32 x 19 ^^^ (x >>> 10)

/-- The 64 SHA-256 round constants, as decimal `Nat` literals. -/
def sha256K : List Nat :=
  [1116352408, 1899447441, 3049323471, 3921009573, 961987163,
   1508970993, 2453635748, 2870763221, 3624381080, 310598401,
   607225278, 1426881987, 1925078388, 2162078206, 2614888103,
   3248222580, 3835390401, 4022224774, 264347078, 604807628,
   770255983, 1249150122, 1555081692, 1996064986, 2554220882,
   2821834349, 2952996808, 3210313671, 3336571891, 3584528711,
   113926993, 338241895, 666307205, 773529912, 1294757372,
   1396182291, 1695183700, 1986661051, 2177026350, 2456956037,
   2730485921, 2820302411, 3259730800, 3345764771, 3516065817,
   3600352804, 4094571909, 275423344, 430227734, 506948616,
   659060556, 883997877, 958139571, 1322822218, 1537002063,
   1747873779, 1955562222, 2024104815, 2227730452, 2361852424,
   2428436474, 2756734187, 3204031479, 3329325298]

/-- The SHA-256 initial hash state, as decimal `Nat` literals. -/
def sha256H0 : List Nat :=
  [1779033703, 3144134277, 1013904242, 2773480762,
   1359893119, 2600822924, 528734635, 1541459225]

/-- Big-endian 64-bit length field. -/
def be64 (n : Nat) : List Nat :=
  (List.range 8).map (fun i => (n >>> (56 - 8 * i)) &&& 255)

/-- SHA-256 message padding. -/
def sha256pad (msg : List Nat) : List Nat :=
  let L := msg.length
  msg ++ [128] ++ List.replicate ((119 - L % 64) % 64) 0 ++ be64 (8 * L)

/-- Chunk a byte list into 64-byte blocks, fuelled by the list length. -/
def chunk64F : Nat → List Nat → List (List Nat)
  | _, [] => []
  | 0, l => [l]
  | fuel + 1, l => l.take 64 :: chunk64F fuel (l.drop 64)

/-- Chunk a byte list into 64-byte blocks. -/
def chunk64 (l : List Nat) : List (List Nat) := chunk64F l.length l

/-- Big-endian 32-bit words of a block. -/
def words16 : List Nat → List Nat
  | b0 :: b1 :: b2 :: b3 :: rest =>
    (((b0 * 256 + b1) * 256 + b2) * 256 + b3) :: words16 rest
  | _ => []

/-- Element `t` of the extended message schedule given the first `t` words. -/
def schedWord (w : List Nat) (t : Nat) : Nat :=
  w32 (ssig1 (w.getD (t - 2) 0) + w.getD (t - 7) 0 +
       ssig0 (w.getD (t - 15) 0) + w.getD (t - 16) 0)

/-- The full 64-word message schedule of a block. -/
def buildW (w16 : List Nat) : List Nat :=
  (List.range 48).foldl (fun w i => w ++ [schedWord w (16 + i)]) w16

/-- One compression round. -/
def compressStep (k wt : Nat) (st : List Nat) : List Nat :=
  match st with
  | [a, b, c, d, e, f, g, hh] =>
    let ch := (e &&& f) ^^^ ((e ^^^ 4294967295) &&& g)
    let maj := (a &&& b) ^^^ (a &&& c) ^^^ (b &&& c)
    let t1 := w32 (hh + bsig1 e + ch + k + wt)
    let t2 := w32 (bsig0 a + maj)
    [w32 (t1 + t2), a, b, c, w32 (d + t1), e, f, g]
  | _ => st

/-- SHA-256 of a byte list as eight 32-bit words. -/
def sha256Words (msg : List Nat) : List Nat :=
  (chunk64 (sha256pad msg)).foldl (fun H blk =>
    let w := buildW (words16 blk)
    let st := (sha256K.zip w).foldl (fun s kw => compressStep kw.1 kw.2 s) H
    (H.zip st).map (fun p => w32 (p.1 + p.2))) sha256H0

/-- One lowercase hex digit. -/
def hexDigit (n : Nat) : Char :=
  if n < 10 then Char.ofNat (48 + n) else Char.ofNat (87 + n)

/-- Eight hex digits of a 32-bit word, most significant first. -/
def toHex8 (w : Nat) : List Char :=
  (List.range 8).map (fun i => hexDigit ((w >>> (28 - 4 * i)) &&& 15))

/-- `hashlib.sha256(msg).hexdigest()`. -/
def sha256hex (msg : List Nat) : String :=
  String.mk (((sha256Words msg).map toHex8).flatten)

/-! ## `checker.py` — data model -/

/-- A value stored in a Python result dict. -/
inductive JVal where
  | null
  | str (s : String)
  | num (q : ℚ)
  | bool (b : Bool)
deriving DecidableEq

/-- A result record: a Python dict literal as an ordered key/value list. -/
def Rec : Type := List (String × JVal)

/-- First-match key lookup in a record (Python `d[k]` / `d.get(k)`). -/
def lookupRec : Rec → String → Option JVal
  | [], _ => none
  | p :: rest, k => if p.1 = k then some p.2 else lookupRec rest k

/-- The keys of a record, in construction order. -/
def recKeys (r : Rec) : List String := r.map Prod.fst

/-- `prev.get(k, dflt)` where `prev = self.last_result.get(ep_key, {})`. -/
def prevGet (prev : Option Rec) (k : String) (dflt : JVal) : JVal :=
  match prev with
  | none => dflt
  | some r => (lookupRec r k).getD dflt

/-- One `regex_keywords` entry: `{"pattern": …, "flags": …}`. -/
structure RegexKw where
  pattern : String
  flags : String

/-- The `settings` block of `keywords.json`, with its defaults resolved
(`case_insensitive=True`, `normalize_whitespace=True`,
`max_bytes_to_scan=3000000`). -/
structure KwSettings where
  case_insensitive : Bool
  normalize_whitespace : Bool
  max_bytes_to_scan : Nat

/-- The loaded keyword configuration (`Checker.keywords_cfg`). -/
structure KeywordsCfg where
  global_keywords : List String
  domains : List (String × List String)
  regex_keywords : List RegexKw
  settings : KwSettings

/-- The runtime tunables the checker reads from `config.settings`. -/
structure Settings where
  HOST_MIN_INTERVAL_S : ℚ
  EP_MIN_INTERVAL_S : ℚ
  TTFB_SLA_S : ℚ

/-- External collaborators of the checker, as uninterpreted functions:
`nfkc` models `unicodedata.normalize("NFKC", ·)`, `pyLower` models
`str.lower` on arbitrary text, `extractTitle` models
`Checker._extract_title` (an HTML regex over the page), and
`regexSearch`/`regexValid` model `re.compile(pattern, flags).search(text)`
and compilability of a pattern. -/
structure PyEnv where
  nfkc : String → String
  pyLower : String → String
  extractTitle : String → String
  regexSearch : String → Nat → String → Bool
  regexValid : String → Nat → Bool

/-! ## `checker.py` — text pipeline -/

/-- `Checker._normalize_text`: NFKC, then (if configured) whitespace
collapse, then (if configured) lowercase. -/
def normalizeText (env : PyEnv) (s : KwSettings) (text : String) : String :=
  let t1 := env.nfkc text
  let t2 := if s.normalize_whitespace then collapseWs t1 else t1
  if s.case_insensitive then env.pyLower t2 else t2

/-- `Checker._extract_domain`: `urlparse(url).netloc.lower()` or `""`. -/
def extractDomain (env : PyEnv) (url : String) : String :=
  if urlNetloc url = "" then "" else env.pyLower (urlNetloc url)

/-- Whether one wildcard `domains` pattern applies:
`pattern.startswith("*.") and domain.endswith(pattern[1:])`. -/
def wildcardApplies (pattern domain : String) : Bool :=
  strStartsWith pattern "*." && strEndsWith domain (strDrop pattern 1)

/-- `Checker._get_domain_keywords`: the exact-match list, then every
wildcard match accumulated in map order (the Python loop with `extend`). -/
def getDomainKeywords (domains : List (String × List String)) (domain : String) :
    List String :=
  let kws0 : List String := (domains.lookup domain).getD []
  domains.foldl (fun acc p =>
    if wildcardApplies p.1 domain then acc ++ p.2 else acc) kws0

/-- The spec's description of `keywordsForDomain`: the exact entry's list,
plus the concatenation of the lists of all matching wildcard patterns. -/
def keywordsForDomainSpec (domains : List (String × List String)) (domain : String) :
    List String :=
  (domains.lookup domain).getD [] ++
    ((domains.filter (fun p => wildcardApplies p.1 domain)).map Prod.snd).flatten

/-- `re.IGNORECASE / MULTILINE / DOTALL` flag value of one pattern
(`Checker._compile_regex_patterns`, lines 113-119). -/
def regexFlagVal (s : KwSettings) (flagsStr : String) : Nat :=
  (if flagsStr.data.contains 'i' || s.case_insensitive then 2 else 0) +
  (if flagsStr.data.contains 'm' then 8 else 0) +
  (if flagsStr.data.contains 's' then 16 else 0)

/-- `Checker._compile_regex_patterns`: keep the compilable patterns with
their flag values, in order. -/
def compileRegexPatterns (env : PyEnv) (cfg : KeywordsCfg) : List (String × Nat) :=
  cfg.regex_keywords.foldl (fun acc it =>
    let fv := regexFlagVal cfg.settings it.flags
    if env.regexValid it.pattern fv then acc ++ [(it.pattern, fv)] else acc) []

/-- `Checker._check_negative_keywords`. -/
def checkNegativeKeywords (env : PyEnv) (cfg : KeywordsCfg)
    (content title domain : String) : List String :=
  let ci := cfg.settings.case_insensitive
  let content_norm := normalizeText env cfg.settings content
  let title_norm := if title ≠ "" then normalizeText env cfg.settings title else ""
  let all_keywords := cfg.global_keywords ++ getDomainKeywords cfg.domains domain
  let lit := all_keywords.foldl (fun acc kw =>
    if kw = "" then acc
    else
      let kn := if ci then env.pyLower kw else kw
      if strHasSub kn content_norm then acc ++ ["CONTENT:" ++ kw]
      else if title_norm ≠ "" && strHasSub kn title_norm then acc ++ ["TITLE:" ++ kw]
      else acc) []
  (compileRegexPatterns env cfg).foldl (fun acc p =>
    if env.regexSearch p.1 p.2 content_norm then acc ++ ["REGEX_CONTENT:" ++ p.1]
    else if title_norm ≠ "" && env.regexSearch p.1 p.2 title_norm then
      acc ++ ["REGEX_TITLE:" ++ p.1]
    else acc) lit

/-! ## `checker.py` — probes -/

/-- Outcome of one HTTP attempt (HEAD, first-byte GET): a status with its
elapsed time, or a raised exception with its message. -/
inductive Attempt where
  | ok (status : Nat) (elapsed : ℚ)
  | exn (msg : String)
deriving DecidableEq

/-- What `Checker._head_or_firstbyte` returns, plus whether the GET
fallback was attempted (observable as the second network request). -/
structure ProbeRes where
  code : Option Nat
  elapsed : ℚ
  err : Option String
  getAttempted : Bool
deriving DecidableEq

/-- `Checker._head_or_firstbyte`. -/
def headOrFirstbyte (robots_policy : String) (head get : Attempt) : ProbeRes :=
  match head with
  | .ok st el => ⟨some st, el, none, false⟩
  | .exn e =>
    if robots_policy = "UNKNOWN" then ⟨none, 0, some e, false⟩
    else
      match get with
      | .ok st el => ⟨some st, el, none, true⟩
      | .exn e2 => ⟨none, 0, some e2, true⟩

/-- `content[:max_bytes]` truncation step of `_get_content_for_analysis`. -/
def truncateContent (maxB : Nat) (text : String) : String :=
  if text.length > maxB then strTake text maxB else text

/-- What `Checker._get_content_for_analysis` returns:
`(status_code, ttfb, content, title, content_hash)`.  The decoded response
text is supplied by the oracle (`resp`); decoding fallbacks never fail
(`errors='ignore'`), so only exception-vs-response is modelled. -/
def getContentForAnalysis (env : PyEnv) (cfg : KeywordsCfg)
    (resp : Option (Nat × ℚ × String)) : Option Nat × ℚ × String × String × String :=
  match resp with
  | none => (none, 0, "", "", "")
  | some (st, tt, text) =>
    let content := truncateContent cfg.settings.max_bytes_to_scan text
    let title := env.extractTitle content
    let chash := strTake (sha256hex (utf8Encode content)) 16
    (some st, tt, content, title, chash)

/-! ## `checker.py` — `check_one` -/

/-- The network and clock behaviour of one `check_one` call: the robots
decision obtained from `check_robots_allow`, the HEAD and fallback GET
attempts, the content GET (`none` = exception), and the clock readings. -/
structure Oracle where
  decision : String
  head : Attempt
  get : Attempt
  content : Option (Nat × ℚ × String)
  now_mono : ℚ
  mark_mono : ℚ
  ts : ℚ

/-- The orchestrator state `check_one` may update: the rate limiter and the
last-result cache. -/
structure CheckerSt where
  rate : RateState
  last_result : String → Option Rec

/-- What one `check_one` call produces: the record, the state after the
call, and whether a probe was issued (the `_head_or_firstbyte` call under
the semaphores). -/
structure CheckOut where
  record : Rec
  st : CheckerSt
  probeIssued : Bool

/-- `decision or "allow"` (line 253). -/
def policyArg (decision : String) : String :=
  if decision = "" then "allow" else decision

/-- The DISALLOWED early-return record (lines 239-240). -/
def disallowedRec (name url : String) (ts : ℚ) : Rec :=
  [("name", .str name), ("url", .str url), ("http", .null), ("ttfb_ms", .num 0),
   ("outcome", .str "DISALLOWED"), ("error", .null), ("ts", .num ts),
   ("robots", .str "parsed")]

/-- The SKIPPED early-return record (lines 243-249), decorated from the
cached previous result. -/
def skippedRec (prev : Option Rec) (name url : String) (ts : ℚ) : Rec :=
  [("name", .str name), ("url", .str url), ("outcome", .str "SKIPPED"),
   ("skipped", .bool true), ("http", prevGet prev "http" .null),
   ("ttfb_ms", prevGet prev "ttfb_ms" (.num 0)),
   ("last_outcome", prevGet prev "outcome" .null),
   ("last_ts", prevGet prev "ts" .null), ("ts", .num ts),
   ("robots", .str "allow")]

/-- Python `round(q, 1)` with ties to even, on exact rationals. -/
def roundHalfEven (q : ℚ) : Int :=
  let f := q.floor
  let r := q - f
  if r < 1 / 2 then f
  else if 1 / 2 < r then f + 1
  else if f % 2 = 0 then f else f + 1

/-- `round(ttfb * 1000, 1)`. -/
def pyRound1 (q : ℚ) : ℚ := (roundHalfEven (q * 10) : ℚ) / 10

/-- `None`-vs-status as a record value. -/
def jvalOfCode : Option Nat → JVal
  | none => .null
  | some c => .num c

/-- `None`-vs-error-message as a record value. -/
def jvalOfErr : Option String → JVal
  | none => .null
  | some e => .str e

/-- The classification block of `check_one` (lines 272-282): outcome and
the final `matched_keywords` list. -/
def classify (code : Option Nat) (ttfb sla : ℚ) (mk : List String) :
    String × List String :=
  match code with
  | some c =>
    if c ≠ 0 ∧ 200 ≤ c ∧ c < 400 then
      (if mk ≠ [] then "UNHEALTHY"
       else if ttfb ≤ sla then "OK" else "UNSTABLE", mk)
    else if c ≠ 0 then
      ((if 500 ≤ c then "HTTP5xx" else "HTTP4xx"), ["HTTP_" ++ Nat.repr c])
    else ("ERROR", ["CONNECTION_ERROR"])
  | none => ("ERROR", ["CONNECTION_ERROR"])

/-- The `_head_or_firstbyte` result of the probe branch. -/
def probeRes (o : Oracle) : ProbeRes :=
  headOrFirstbyte (policyArg o.decision) o.head o.get

/-- The content-analysis block of the probe branch (lines 259-269):
`(matched_keywords, title, content_hash)` before classification. -/
def probeMatched (env : PyEnv) (cfg : KeywordsCfg) (url : String) (o : Oracle) :
    List String × String × String :=
  if (probeRes o).code = some 200 then
    let r := getContentForAnalysis env cfg o.content
    let content := r.2.2.1
    let title := r.2.2.2.1
    let chash := r.2.2.2.2
    (if content ≠ "" then
       checkNegativeKeywords env cfg content title (extractDomain env url) else [],
     title, chash)
  else ([], "", "")

/-- Point update of the last-result cache (`self.last_result[ep_key] = res`). -/
def updateLast (f : String → Option Rec) (k : String) (v : Rec) :
    String → Option Rec :=
  fun x => if x = k then some v else f x

/-- The probe branch of `check_one` (lines 251-291). -/
def probePath (env : PyEnv) (cfg : KeywordsCfg) (stg : Settings) (st : CheckerSt)
    (name url : String) (o : Oracle) : CheckOut :=
  let h := urlNetloc url
  let pr := probeRes o
  let rate2 := rateMark st.rate o.mark_mono h url
  let ttfb_ms := pyRound1 (pr.elapsed * 1000)
  let m := probeMatched env cfg url o
  let cls := classify pr.code pr.elapsed stg.TTFB_SLA_S m.1
  let res : Rec :=
    [("name", .str name), ("url", .str url), ("http", jvalOfCode pr.code),
     ("ttfb_ms", .num ttfb_ms), ("outcome", .str cls.1),
     ("error", jvalOfErr pr.err), ("ts", .num o.ts),
     ("robots", .str (asciiLower (policyArg o.decision))),
     ("matched_keywords", .str (String.intercalate ";" cls.2)),
     ("title", .str m.2.1), ("content_sha256", .str m.2.2)]
  { record := res,
    st := { rate := rate2, last_result := updateLast st.last_result url res },
    probeIssued := true }

/-- `Checker.check_one`: the robots gate, the rate gate, then the probe
branch. -/
def check_one (env : PyEnv) (cfg : KeywordsCfg) (stg : Settings) (st : CheckerSt)
    (name url : String) (o : Oracle) : CheckOut :=
  if o.decision = "DISALLOW" then
    { record := disallowedRec name url o.ts, st := st, probeIssued := false }
  else if allowed_now st.rate o.now_mono (urlNetloc url) url
      stg.HOST_MIN_INTERVAL_S stg.EP_MIN_INTERVAL_S = false then
    { record := skippedRec (st.last_result url) name url o.ts, st := st,
      probeIssued := false }
  else probePath env cfg stg st name url o

/-! ## Shape predicates for the whitespace-collapse proof -/

/-- The list does not start with Python whitespace. -/
def noLeadWs : List Char → Bool
  | [] => true
  | c :: _ => !pyIsSpace c

/-- The list does not end with Python whitespace. -/
def noTrailWs : List Char → Bool
  | [] => true
  | [c] => !pyIsSpace c
  | _ :: cs => noTrailWs cs

/-- Every whitespace character is a single `' '` not followed by more
whitespace — the shape `re.sub(r"\s+", " ", ·)` produces. -/
def goodRun : List Char → Bool
  | [] => true
  | c :: cs => (if pyIsSpace c then (c == ' ') && noLeadWs cs else true) && goodRun cs

/-! ## Concrete instances used by witnesses and counterexamples -/

/-- An environment with identity Unicode maps and trivial regex/title
collaborators, for concrete evaluation on ASCII inputs. -/
def egEnv : PyEnv :=
  { nfkc := fun x => x, pyLower := asciiLower, extractTitle := fun _ => "",
    regexSearch := fun _ _ _ => false, regexValid := fun _ _ => true }

/-- An environment whose Unicode maps are both the identity. -/
def egEnvId : PyEnv :=
  { nfkc := fun x => x, pyLower := fun x => x, extractTitle := fun _ => "",
    regexSearch := fun _ _ _ => false, regexValid := fun _ _ => true }

/-- The default keyword configuration shape with one global keyword. -/
def egCfg : KeywordsCfg :=
  { global_keywords := ["maintenance"], domains := [], regex_keywords := [],
    settings := { case_insensitive := true, normalize_whitespace := true,
                  max_bytes_to_scan := 3000000 } }

/-- Small runtime tunables. -/
def egStg : Settings :=
  { HOST_MIN_INTERVAL_S := 1, EP_MIN_INTERVAL_S := 1, TTFB_SLA_S := 8 }

/-- Fresh orchestrator state: zero timestamps, empty cache. -/
def egSt0 : CheckerSt :=
  { rate := ⟨fun _ => 0, fun _ => 0⟩, last_result := fun _ => none }

/-- A previously cached result record. -/
def egPrevRec : Rec :=
  [("name", .str "n"), ("url", .str "http://example.com/"), ("http", .num 200),
   ("ttfb_ms", .num 123), ("outcome", .str "OK"), ("ts", .num 500),
   ("robots", .str "allow")]

/-- State holding `egPrevRec` in the last-result cache. -/
def egStPrev : CheckerSt :=
  { rate := ⟨fun _ => 0, fun _ => 0⟩,
    last_result := fun k => if k = "http://example.com/" then some egPrevRec else none }

/-- A successful full-probe cycle: allowed, HTTP 200, content `"A"`. -/
def egOracle : Oracle :=
  { decision := "ALLOW", head := .ok 200 (1 / 2), get := .exn "x",
    content := some (200, 1 / 2, "A"), now_mono := 10, mark_mono := 11, ts := 1000 }

/-- A robots-disallowed cycle. -/
def egOracleDis : Oracle :=
  { decision := "DISALLOW", head := .exn "n", get := .exn "n", content := none,
    now_mono := 10, mark_mono := 11, ts := 1000 }

/-- A rate-limited cycle: monotonic clock still at 0, intervals 1. -/
def egOracleSkip : Oracle :=
  { decision := "ALLOW", head := .exn "n", get := .exn "n", content := none,
    now_mono := 0, mark_mono := 0, ts := 1000 }

/-- A parsed robots record whose longest matching Disallow rule is longer
than its longest matching Allow rule on `/abc`. -/
def egRobotsRec : RobotsRec :=
  { policy := "parsed", allows := ["/a"], disallows := ["/ab"] }

/-- A robots cache holding `egRobotsRec` for host `h.example` since time 0. -/
def egRobotsCache : RobotsCache :=
  fun h => if h = "h.example" then some (0, egRobotsRec) else none

/-! ## Theorems -/

/-- Claim C3: for every host key, endpoint key and pair of non-negative
intervals, `allowed_now` returns true iff the elapsed monotonic time since
the last mark of the host is at least the host interval and the elapsed
time since the last mark of the endpoint key is at least the endpoint
interval; it returns false strictly below either boundary and true at or
after both. -/
theorem C3_allowed_now_boundary (r : RateState) (host ep : String)
    (hi ei now : ℚ) (hhi : 0 ≤ hi) (hei : 0 ≤ ei) :
    (allowed_now r now host ep hi ei = true ↔
      hi ≤ now - r.last_host_check host ∧ ei ≤ now - r.last_ep_check ep) ∧
    (now - r.last_host_check host < hi → allowed_now r now host ep hi ei = false) ∧
    (now - r.last_ep_check ep < ei → allowed_now r now host ep hi ei = false) := by
  refine ⟨?_, ?_, ?_⟩
  · simp [allowed_now, ge_iff_le]
  · intro h
    simp [allowed_now, ge_iff_le, not_le.mpr h]
  · intro h
    simp [allowed_now, ge_iff_le, not_le.mpr h]

/-- Witness for C3 at a concrete state: allowed at both boundaries met,
denied just under the host boundary. -/
theorem C3_witness :
    allowed_now ⟨fun _ => 0, fun _ => 0⟩ 5 "h" "e" 2 3 = true ∧
    allowed_now ⟨fun _ => 0, fun _ => 0⟩ 1 "h" "e" 2 3 = false := by
  constructor
  · exact (C3_allowed_now_boundary ⟨fun _ => 0, fun _ => 0⟩ "h" "e" 2 3 5
      (by norm_num) (by norm_num)).1.mpr
      ⟨by show (2 : ℚ) ≤ 5 - 0; norm_num, by show (3 : ℚ) ≤ 5 - 0; norm_num⟩
  · exact (C3_allowed_now_boundary ⟨fun _ => 0, fun _ => 0⟩ "h" "e" 2 3 1
      (by norm_num) (by norm_num)).2.1 (by show (1 : ℚ) - 0 < 2; norm_num)

/-- Claim C9: when the HEAD probe raises and the robots decision is
UNKNOWN, `_head_or_firstbyte` performs no GET fallback and returns no
status, elapsed 0 and the error; the GET fallback is attempted only when
the policy is not UNKNOWN (and the HEAD attempt raised). -/
theorem C9_head_failure_no_fallback (policy : String) (head get : Attempt) :
    (∀ e, head = .exn e → policy = "UNKNOWN" →
      headOrFirstbyte policy head get = ⟨none, 0, some e, false⟩) ∧
    ((headOrFirstbyte policy head get).getAttempted = true →
      policy ≠ "UNKNOWN" ∧ ∃ e, head = .exn e) := by
  constructor
  · rintro e rfl h
    simp [headOrFirstbyte, h]
  · cases head with
    | ok st el => simp [headOrFirstbyte]
    | exn e =>
      by_cases h : policy = "UNKNOWN" <;>
        cases get <;> simp [headOrFirstbyte, h]

/-- Witness for C9: a concrete HEAD failure under UNKNOWN policy. -/
theorem C9_witness :
    headOrFirstbyte "UNKNOWN" (.exn "boom") (.ok 200 1) =
      ⟨none, 0, some "boom", false⟩ :=
  (C9_head_failure_no_fallback "UNKNOWN" (.exn "boom") (.ok 200 1)).1 "boom" rfl rfl

/-- The Python `for`-loop with `extend` over the wildcard entries equals the
filtered concatenation. -/
theorem foldl_extend_filter (dom : String) (d : List (String × List String))
    (acc : List String) :
    d.foldl (fun a p => if wildcardApplies p.1 dom then a ++ p.2 else a) acc =
      acc ++ ((d.filter (fun p => wildcardApplies p.1 dom)).map Prod.snd).flatten := by
  induction d generalizing acc with
  | nil => simp
  | cons p rest ih =>
    by_cases h : wildcardApplies p.1 dom <;>
      simp [h, ih, List.append_assoc]

/-- Claim C6: the domain-keyword selection accumulates every matching entry
of the domain map — the exact-match entry's list first, then the list of
every wildcard pattern `*.suffix` the domain ends in, in map order; and
`*.go.kr` matches `www.data.go.kr` but not `go.kr.example.com`. -/
theorem C6_domain_keywords_accumulate (domains : List (String × List String))
    (domain : String) :
    getDomainKeywords domains domain = keywordsForDomainSpec domains domain ∧
    wildcardApplies "*.go.kr" "www.data.go.kr" = true ∧
    wildcardApplies "*.go.kr" "go.kr.example.com" = false := by
  refine ⟨?_, by decide, by decide⟩
  unfold getDomainKeywords keywordsForDomainSpec
  exact foldl_extend_filter domain domains _

/-- `_longest_match` never drops below its `-1` start. -/
theorem neg_one_le_longestMatch (path : String) (rules : List String) :
    -1 ≤ longestMatch path rules := by
  unfold longestMatch
  have h : ∀ (rs : List String) (init : Int),
      init ≤ rs.foldl (fun best r =>
        if ruleMatches r path then max best (Int.ofNat r.length) else best) init := by
    intro rs
    induction rs with
    | nil => intro init; simp
    | cons r rest ih =>
      intro init
      simp only [List.foldl_cons]
      refine le_trans ?_ (ih _)
      split
      · exact le_max_left _ _
      · exact le_refl _
  exact h rules (-1)

/-- `_allowed` is false exactly when the longest matching Disallow rule is
strictly longer than the longest matching Allow rule. -/
theorem robotsAllowed_eq_false_iff (path : String) (allows disallows : List String) :
    robotsAllowed path allows disallows = false ↔
      longestMatch path allows < longestMatch path disallows := by
  have ha := neg_one_le_longestMatch path allows
  have hd := neg_one_le_longestMatch path disallows
  unfold robotsAllowed
  dsimp only
  split
  · next h =>
    simp only [Bool.true_eq_false, false_iff, not_lt]
    omega
  · next h =>
    simp [decide_eq_false_iff_not, not_le]

/-- Reduction of `check_robots_allow` on a fresh cache hit. -/
theorem check_robots_allow_cached (cache : RobotsCache) (now : ℚ) (url : String)
    (fetch : FetchOutcome) (t : ℚ) (rb : RobotsRec)
    (hc : cache (urlNetloc url) = some (t, rb)) (hfresh : now - t < robotsTTL) :
    check_robots_allow cache now url fetch =
      (robotsDecide rb (if urlPath url = "" then "/" else urlPath url), cache) := by
  unfold check_robots_allow
  dsimp only
  rw [hc]
  dsimp only
  rw [if_pos hfresh]

/-- Reduction of `check_robots_allow` on a cache miss or a stale entry. -/
theorem check_robots_allow_fetch (cache : RobotsCache) (now : ℚ) (url : String)
    (fetch : FetchOutcome)
    (hmiss : ∀ t r, cache (urlNetloc url) = some (t, r) → robotsTTL ≤ now - t) :
    check_robots_allow cache now url fetch =
      (robotsDecide (robotsRecOfFetch fetch)
         (if urlPath url = "" then "/" else urlPath url),
       fun h => if h = urlNetloc url then some (now, robotsRecOfFetch fetch)
                else cache h) := by
  unfold check_robots_allow
  dsimp only
  rcases hcc : cache (urlNetloc url) with _ | ⟨t, r⟩
  · rfl
  · dsimp only
    rw [if_neg (not_lt.mpr (hmiss t r hcc))]

/-- Claim C2: for a URL whose host has a fresh cached robots record with
policy `parsed`, the decision is DISALLOW iff the longest Disallow rule
matching the path is strictly longer than the longest matching Allow rule;
ties and no-match give ALLOW (the decision is binary in this branch). -/
theorem C2_robots_strict_disallow (cache : RobotsCache) (now : ℚ) (url : String)
    (fetch : FetchOutcome) (t : ℚ) (rb : RobotsRec)
    (hc : cache (urlNetloc url) = some (t, rb)) (hfresh : now - t < robotsTTL)
    (hp : rb.policy = "parsed") :
    ((check_robots_allow cache now url fetch).1 = "DISALLOW" ↔
      longestMatch (if urlPath url = "" then "/" else urlPath url) rb.allows <
        longestMatch (if urlPath url = "" then "/" else urlPath url) rb.disallows) ∧
    ((check_robots_allow cache now url fetch).1 = "DISALLOW" ∨
      (check_robots_allow cache now url fetch).1 = "ALLOW") := by
  rw [check_robots_allow_cached cache now url fetch t rb hc hfresh]
  unfold robotsDecide
  rw [hp]
  simp only [if_pos rfl]
  set p := (if urlPath url = "" then "/" else urlPath url) with hpth
  by_cases hall : robotsAllowed p rb.allows rb.disallows = true
  · rw [if_pos hall]
    have hnot : ¬ longestMatch p rb.allows < longestMatch p rb.disallows := by
      intro hlt
      rw [← robotsAllowed_eq_false_iff] at hlt
      rw [hall] at hlt
      exact Bool.true_eq_false.mp hlt
    simp [hnot]
  · rw [if_neg hall]
    have hlt := (robotsAllowed_eq_false_iff p rb.allows rb.disallows).mp
      (Bool.eq_false_iff.mpr hall)
    simp [hlt]

/-- Witness for C2: `/abc` with Allow `/a` (length 2) and Disallow `/ab`
(length 3) is disallowed. -/
theorem C2_witness :
    (check_robots_allow egRobotsCache 5 "http://h.example/abc" .exn).1 =
      "DISALLOW" :=
  (C2_robots_strict_disallow egRobotsCache 5 "http://h.example/abc" .exn 0
    egRobotsRec (by decide) (by norm_num [robotsTTL]) rfl).1.mpr (by decide)

/-- Claim C8: when the robots fetch raises or returns a status other than
200 and 404, the resulting record has policy `unknown`, it is cached for the
host, and the decision — now and for any later URL on that host while the
cache entry is fresh — is UNKNOWN, never DISALLOW; an HTTP 404 yields
policy `allow` and decision ALLOW (also cached). -/
theorem C8_robots_fetch_failure (cache : RobotsCache) (now : ℚ) (url : String)
    (fetch : FetchOutcome)
    (hmiss : ∀ t r, cache (urlNetloc url) = some (t, r) → robotsTTL ≤ now - t) :
    ((fetch = .exn ∨ ∃ st txt, fetch = .ok st txt ∧ st ≠ 200 ∧ st ≠ 404) →
      (check_robots_allow cache now url fetch).1 = "UNKNOWN" ∧
      (check_robots_allow cache now url fetch).2 (urlNetloc url) =
        some (now, ⟨"unknown", [], []⟩) ∧
      (∀ url2 now2 fetch2, urlNetloc url2 = urlNetloc url →
        now2 - now < robotsTTL →
        (check_robots_allow (check_robots_allow cache now url fetch).2
          now2 url2 fetch2).1 = "UNKNOWN")) ∧
    (∀ txt, fetch = .ok 404 txt →
      (check_robots_allow cache now url fetch).1 = "ALLOW" ∧
      (check_robots_allow cache now url fetch).2 (urlNetloc url) =
        some (now, ⟨"allow", [], []⟩)) := by
  rw [check_robots_allow_fetch cache now url fetch hmiss]
  constructor
  · intro hfail
    have hrec : robotsRecOfFetch fetch = ⟨"unknown", [], []⟩ := by
      rcases hfail with h | ⟨st, txt, h, h200, h404⟩
      · rw [h]; rfl
      · rw [h]; simp [robotsRecOfFetch, h200, h404]
    rw [hrec]
    refine ⟨by simp [robotsDecide], by simp, ?_⟩
    intro url2 now2 fetch2 hh hf
    have hc2 : (fun h => if h = urlNetloc url then
        some (now, (⟨"unknown", [], []⟩ : RobotsRec)) else cache h)
          (urlNetloc url2) = some (now, ⟨"unknown", [], []⟩) := by
      simp [hh]
    rw [check_robots_allow_cached _ now2 url2 fetch2 now ⟨"unknown", [], []⟩ hc2 hf]
    simp [robotsDecide]
  · rintro txt rfl
    have hrec : robotsRecOfFetch (.ok 404 txt) = ⟨"allow", [], []⟩ := by
      simp [robotsRecOfFetch]
    rw [hrec]
    exact ⟨by simp [robotsDecide], by simp⟩

/-- Witness for C8: an HTTP 500 robots response on an uncached host yields
UNKNOWN. -/
theorem C8_witness :
    (check_robots_allow (fun _ => none) 100 "http://x.test/p" (.ok 500 "")).1 =
      "UNKNOWN" :=
  ((C8_robots_fetch_failure (fun _ => none) 100 "http://x.test/p" (.ok 500 "")
    (fun _ _ h => Option.noConfusion h)).1
    (Or.inr ⟨500, "", rfl, by decide, by decide⟩)).1

/-- The outcome field of the probe-branch record is the classifier's
outcome, and the early-return records carry their fixed outcomes. -/
theorem lookup_outcome_probePath (env : PyEnv) (cfg : KeywordsCfg)
    (stg : Settings) (st : CheckerSt) (name url : String) (o : Oracle) :
    lookupRec (probePath env cfg stg st name url o).record "outcome" =
      some (.str (classify (probeRes o).code (probeRes o).elapsed
        stg.TTFB_SLA_S (probeMatched env cfg url o).1).1) := by
  simp [probePath, lookupRec]

/-- Claim C1: `check_one` follows the ordered checks — robots DISALLOW
gives DISALLOWED with no probe; a rate-limiter denial gives SKIPPED with no
probe, decorated with the cached last outcome and timestamp; otherwise a
probe is issued and no status gives ERROR, a 2xx/3xx status gives
UNHEALTHY on a keyword/regex match, OK within the TTFB SLA and UNSTABLE
above it, a 4xx status gives HTTP4xx and a 5xx status gives HTTP5xx. -/
theorem C1_check_one_classification (env : PyEnv) (cfg : KeywordsCfg)
    (stg : Settings) (st : CheckerSt) (name url : String) (o : Oracle)
    (co : CheckOut) (hco : co = check_one env cfg stg st name url o) :
    (o.decision = "DISALLOW" →
      lookupRec co.record "outcome" = some (.str "DISALLOWED") ∧
      co.probeIssued = false) ∧
    (o.decision ≠ "DISALLOW" →
      allowed_now st.rate o.now_mono (urlNetloc url) url stg.HOST_MIN_INTERVAL_S
        stg.EP_MIN_INTERVAL_S = false →
      lookupRec co.record "outcome" = some (.str "SKIPPED") ∧
      co.probeIssued = false ∧
      lookupRec co.record "last_outcome" =
        some (prevGet (st.last_result url) "outcome" .null) ∧
      lookupRec co.record "last_ts" =
        some (prevGet (st.last_result url) "ts" .null)) ∧
    (o.decision ≠ "DISALLOW" →
      allowed_now st.rate o.now_mono (urlNetloc url) url stg.HOST_MIN_INTERVAL_S
        stg.EP_MIN_INTERVAL_S = true →
      co.probeIssued = true ∧
      ((probeRes o).code = none →
        lookupRec co.record "outcome" = some (.str "ERROR")) ∧
      (∀ c, (probeRes o).code = some c → 200 ≤ c → c < 400 →
        ((probeMatched env cfg url o).1 ≠ [] →
          lookupRec co.record "outcome" = some (.str "UNHEALTHY")) ∧
        ((probeMatched env cfg url o).1 = [] →
          (probeRes o).elapsed ≤ stg.TTFB_SLA_S →
          lookupRec co.record "outcome" = some (.str "OK")) ∧
        ((probeMatched env cfg url o).1 = [] →
          stg.TTFB_SLA_S < (probeRes o).elapsed →
          lookupRec co.record "outcome" = some (.str "UNSTABLE"))) ∧
      (∀ c, (probeRes o).code = some c → 400 ≤ c → c < 500 →
        lookupRec co.record "outcome" = some (.str "HTTP4xx")) ∧
      (∀ c, (probeRes o).code = some c → 500 ≤ c →
        lookupRec co.record "outcome" = some (.str "HTTP5xx"))) := by
  subst hco
  refine ⟨?_, ?_, ?_⟩
  · intro h
    simp [check_one, h, disallowedRec, lookupRec]
  · intro h hna
    simp [check_one, h, hna, skippedRec, lookupRec]
  · intro h ha
    have hb : check_one env cfg stg st name url o = probePath env cfg stg st name url o := by
      simp [check_one, h, ha]
    rw [hb]
    refine ⟨by simp [probePath], ?_, ?_, ?_, ?_⟩
    · intro hc
      rw [lookup_outcome_probePath, hc]
      simp [classify]
    · intro c hc h200 h400
      have hcond : c ≠ 0 ∧ 200 ≤ c ∧ c < 400 := ⟨by omega, h200, h400⟩
      refine ⟨?_, ?_, ?_⟩
      · intro hmk
        rw [lookup_outcome_probePath, hc]
        simp [classify, hcond, hmk]
      · intro hmk hsla
        rw [lookup_outcome_probePath, hc]
        simp [classify, hcond, hmk, hsla]
      · intro hmk hsla
        rw [lookup_outcome_probePath, hc]
        simp [classify, hcond, hmk, not_le.mpr hsla]
    · intro c hc h400 h500
      have hcond : ¬ (200 ≤ c ∧ c < 400) := by omega
      have hz : c ≠ 0 := by omega
      rw [lookup_outcome_probePath, hc]
      simp [classify, hcond, hz, not_le.mpr h500]
    · intro c hc h500
      have hcond : ¬ (200 ≤ c ∧ c < 400) := by omega
      have hz : c ≠ 0 := by omega
      rw [lookup_outcome_probePath, hc]
      simp [classify, hcond, hz, h500]

/-- Witness for C1: the concrete full-probe cycle `egOracle` (status 200,
TTFB 0.5s, SLA 8s, no keyword match) is classified OK. -/
theorem C1_witness :
    lookupRec (check_one egEnv egCfg egStg egSt0 "n" "http://example.com/"
      egOracle).record "outcome" = some (.str "OK") :=
  ((C1_check_one_classification egEnv egCfg egStg egSt0 "n" "http://example.com/"
      egOracle _ rfl).2.2 (by decide) (by with_unfolding_all rfl)).2.2.1 200 rfl
    (by norm_num) (by norm_num) |>.2.1 (by decide)
    (of_decide_eq_true (by with_unfolding_all rfl))

/-- The classifier never produces the early-return outcomes. -/
theorem classify_ne_skip (code : Option Nat) (ttfb sla : ℚ) (mk : List String) :
    (classify code ttfb sla mk).1 ≠ "DISALLOWED" ∧
    (classify code ttfb sla mk).1 ≠ "SKIPPED" := by
  cases code with
  | none => simp [classify]
  | some c =>
    simp only [classify]
    split_ifs <;> simp

/-- Claim C7: a DISALLOWED or SKIPPED result leaves the rate-limiter
timestamp maps and the last-result cache untouched, and no probe was
issued (so `mark` was never called). -/
theorem C7_skip_disallow_frame (env : PyEnv) (cfg : KeywordsCfg)
    (stg : Settings) (st : CheckerSt) (name url : String) (o : Oracle)
    (co : CheckOut) (hco : co = check_one env cfg stg st name url o)
    (h : lookupRec co.record "outcome" = some (.str "DISALLOWED") ∨
         lookupRec co.record "outcome" = some (.str "SKIPPED")) :
    co.st = st ∧ co.probeIssued = false := by
  subst hco
  by_cases hd : o.decision = "DISALLOW"
  · simp [check_one, hd]
  · by_cases hn : allowed_now st.rate o.now_mono (urlNetloc url) url
        stg.HOST_MIN_INTERVAL_S stg.EP_MIN_INTERVAL_S = false
    · simp [check_one, hd, hn]
    · exfalso
      have ha : allowed_now st.rate o.now_mono (urlNetloc url) url
          stg.HOST_MIN_INTERVAL_S stg.EP_MIN_INTERVAL_S = true := by
        revert hn
        cases allowed_now st.rate o.now_mono (urlNetloc url) url
          stg.HOST_MIN_INTERVAL_S stg.EP_MIN_INTERVAL_S <;> simp
      have hb : check_one env cfg stg st name url o =
          probePath env cfg stg st name url o := by
        simp [check_one, hd, ha]
      rw [hb, lookup_outcome_probePath] at h
      simp only [Option.some.injEq, JVal.str.injEq] at h
      rcases h with h | h
      · exact (classify_ne_skip (probeRes o).code (probeRes o).elapsed
          stg.TTFB_SLA_S (probeMatched env cfg url o).1).1 h
      · exact (classify_ne_skip (probeRes o).code (probeRes o).elapsed
          stg.TTFB_SLA_S (probeMatched env cfg url o).1).2 h

/-- Witness for C7: the concrete robots-disallowed cycle leaves the state
unchanged and issues no probe. -/
theorem C7_witness :
    (check_one egEnv egCfg egStg egSt0 "n" "http://example.com/"
      egOracleDis).st = egSt0 ∧
    (check_one egEnv egCfg egStg egSt0 "n" "http://example.com/"
      egOracleDis).probeIssued = false :=
  C7_skip_disallow_frame egEnv egCfg egStg egSt0 "n" "http://example.com/"
    egOracleDis _ rfl (Or.inl (by decide))

/-- Counterexample to C5 as stated: the DISALLOWED early-return record of a
concrete robots-disallowed check contains none of the fields
`matched_keywords`, `title`, `content_sha256`. -/
theorem C5_counterexample :
    lookupRec (check_one egEnv egCfg egStg egSt0 "n" "http://example.com/"
      egOracleDis).record "outcome" = some (.str "DISALLOWED") ∧
    lookupRec (check_one egEnv egCfg egStg egSt0 "n" "http://example.com/"
      egOracleDis).record "matched_keywords" = none ∧
    lookupRec (check_one egEnv egCfg egStg egSt0 "n" "http://example.com/"
      egOracleDis).record "title" = none ∧
    lookupRec (check_one egEnv egCfg egStg egSt0 "n" "http://example.com/"
      egOracleDis).record "content_sha256" = none := by
  decide

/-- Claim C5 (amended): only full-probe records contain all eleven fields
(under the code's key names `http`, `ts`, `robots` for the spec's
`http_status`, `timestamp`, `robots_decision`); DISALLOWED records omit
`matched_keywords`, `title` and `content_sha256`, and SKIPPED records
additionally omit `error` while adding `skipped`, `last_outcome`,
`last_ts`. -/
theorem C5_record_fields (env : PyEnv) (cfg : KeywordsCfg) (stg : Settings)
    (st : CheckerSt) (name url : String) (o : Oracle)
    (co : CheckOut) (hco : co = check_one env cfg stg st name url o) :
    (o.decision = "DISALLOW" →
      recKeys co.record =
        ["name", "url", "http", "ttfb_ms", "outcome", "error", "ts", "robots"]) ∧
    (o.decision ≠ "DISALLOW" →
      allowed_now st.rate o.now_mono (urlNetloc url) url stg.HOST_MIN_INTERVAL_S
        stg.EP_MIN_INTERVAL_S = false →
      recKeys co.record =
        ["name", "url", "outcome", "skipped", "http", "ttfb_ms",
         "last_outcome", "last_ts", "ts", "robots"]) ∧
    (o.decision ≠ "DISALLOW" →
      allowed_now st.rate o.now_mono (urlNetloc url) url stg.HOST_MIN_INTERVAL_S
        stg.EP_MIN_INTERVAL_S = true →
      recKeys co.record =
        ["name", "url", "http", "ttfb_ms", "outcome", "error", "ts", "robots",
         "matched_keywords", "title", "content_sha256"]) := by
  subst hco
  refine ⟨?_, ?_, ?_⟩
  · intro h
    simp [check_one, h, disallowedRec, recKeys]
  · intro h hna
    simp [check_one, h, hna, skippedRec, recKeys]
  · intro h ha
    simp [check_one, h, ha, probePath, recKeys]

/-- Witness for C5 (amended): the field lists of a concrete DISALLOWED
record. -/
theorem C5_witness :
    recKeys (check_one egEnv egCfg egStg egSt0 "n" "http://example.com/"
      egOracleDis).record =
      ["name", "url", "http", "ttfb_ms", "outcome", "error", "ts", "robots"] :=
  (C5_record_fields egEnv egCfg egStg egSt0 "n" "http://example.com/"
    egOracleDis _ rfl).1 rfl

/-- Counterexample to C4 as stated: in the concrete full-probe cycle on
content `"A"`, the emitted `content_sha256` is non-empty yet differs from
the truncated SHA-256 of the normalized page text (the text actually
scanned for keywords, which lowercases `"A"` to `"a"`). -/
theorem C4_counterexample :
    lookupRec (check_one egEnv egCfg egStg egSt0 "n" "http://example.com/"
      egOracle).record "content_sha256" ≠ some (.str "") ∧
    lookupRec (check_one egEnv egCfg egStg egSt0 "n" "http://example.com/"
      egOracle).record "content_sha256" ≠
      some (.str (strTake (sha256hex (utf8Encode (normalizeText egEnv
        egCfg.settings (truncateContent egCfg.settings.max_bytes_to_scan
          "A")))) 16)) :=
  of_decide_eq_true (by with_unfolding_all rfl)

/-- Claim C4 (amended): the `content_sha256` of a full-probe record with a
200 status and a delivered body is the first 16 hex characters of the
SHA-256 digest of the UTF-8 encoding of the truncated page text as decoded
— before normalization; the normalized text is used only for keyword
scanning. -/
theorem C4_content_hash_raw (env : PyEnv) (cfg : KeywordsCfg) (stg : Settings)
    (st : CheckerSt) (name url : String) (o : Oracle) (co : CheckOut)
    (st2 : Nat) (tt : ℚ) (txt : String)
    (hco : co = check_one env cfg stg st name url o)
    (hdec : o.decision ≠ "DISALLOW")
    (hallow : allowed_now st.rate o.now_mono (urlNetloc url) url
      stg.HOST_MIN_INTERVAL_S stg.EP_MIN_INTERVAL_S = true)
    (hcode : (probeRes o).code = some 200)
    (hcontent : o.content = some (st2, tt, txt)) :
    lookupRec co.record "content_sha256" =
      some (.str (strTake (sha256hex (utf8Encode
        (truncateContent cfg.settings.max_bytes_to_scan txt))) 16)) := by
  subst hco
  have hb : check_one env cfg stg st name url o =
      probePath env cfg stg st name url o := by
    simp [check_one, hdec, hallow]
  rw [hb]
  simp [probePath, lookupRec, probeMatched, hcode, getContentForAnalysis, hcontent]

/-- Witness for C4 (amended) at the concrete cycle on content `"A"`. -/
theorem C4_witness :
    lookupRec (check_one egEnv egCfg egStg egSt0 "n" "http://example.com/"
      egOracle).record "content_sha256" =
      some (.str (strTake (sha256hex (utf8Encode
        (truncateContent egCfg.settings.max_bytes_to_scan "A"))) 16)) :=
  C4_content_hash_raw egEnv egCfg egStg egSt0 "n" "http://example.com/"
    egOracle _ 200 (1 / 2) "A" rfl (by decide)
    (by with_unfolding_all rfl) rfl rfl

/-- `goodRun` is closed under tails. -/
theorem goodRun_tail {c : Char} {cs : List Char} (h : goodRun (c :: cs) = true) :
    goodRun cs = true := by
  simp only [goodRun, Bool.and_eq_true] at h
  exact h.2

/-- Output of the collapser in after-whitespace state never starts with
whitespace. -/
theorem noLeadWs_collapseAux_true (l : List Char) :
    noLeadWs (collapseAux true l) = true := by
  induction l with
  | nil => rfl
  | cons c cs ih =>
    by_cases h : pyIsSpace c
    · simpa [collapseAux, h] using ih
    · simp [collapseAux, h, noLeadWs]

/-- `pyIsSpace ' '` holds. -/
theorem pyIsSpace_space : pyIsSpace ' ' = true := rfl

/-- The collapser always produces isolated single spaces. -/
theorem goodRun_collapseAux (l : List Char) : ∀ b, goodRun (collapseAux b l) = true := by
  induction l with
  | nil => intro b; rfl
  | cons c cs ih =>
    intro b
    by_cases h : pyIsSpace c
    · cases b
      · simp [collapseAux, h, goodRun, pyIsSpace_space,
          noLeadWs_collapseAux_true, ih]
      · simp [collapseAux, h, ih]
    · simp [collapseAux, h, goodRun, ih]

/-- A list of isolated single spaces (not starting with whitespace when the
state says so) is a fixed point of the collapser. -/
theorem collapseAux_fixed : ∀ (l : List Char) (b : Bool), goodRun l = true →
    (b = true → noLeadWs l = true) → collapseAux b l = l := by
  intro l
  induction l with
  | nil => intro b _ _; rfl
  | cons c cs ih =>
    intro b hg hb
    have hg2 := goodRun_tail hg
    by_cases h : pyIsSpace c
    · simp only [goodRun, h, if_true, Bool.and_eq_true, beq_iff_eq] at hg
      obtain ⟨⟨hc, hlead⟩, _⟩ := hg
      have hbf : b = false := by
        cases b
        · rfl
        · exfalso
          have hx := hb rfl
          rw [noLeadWs] at hx
          rw [h] at hx
          exact Bool.noConfusion hx
      subst hbf
      subst hc
      simp only [collapseAux, pyIsSpace_space, if_true, Bool.false_eq_true,
        if_false]
      exact congrArg (' ' :: ·) (ih true hg2 fun _ => hlead)
    · simp only [collapseAux, h, if_false, Bool.false_eq_true]
      exact congrArg (c :: ·) (ih false hg2 fun hx => Bool.noConfusion hx)

/-- `goodRun` survives dropping a whitespace prefix. -/
theorem goodRun_dropWhile (l : List Char) (hg : goodRun l = true) :
    goodRun (l.dropWhile pyIsSpace) = true := by
  induction l with
  | nil => exact hg
  | cons c cs ih =>
    by_cases h : pyIsSpace c
    · simpa [List.dropWhile_cons, h] using ih (goodRun_tail hg)
    · simpa [List.dropWhile_cons, h] using hg

/-- Dropping the whitespace prefix leaves no leading whitespace. -/
theorem noLeadWs_dropWhile (l : List Char) :
    noLeadWs (l.dropWhile pyIsSpace) = true := by
  induction l with
  | nil => rfl
  | cons c cs ih =>
    by_cases h : pyIsSpace c
    · simpa [List.dropWhile_cons, h] using ih
    · simp [List.dropWhile_cons, h, noLeadWs]

/-- `noTrailWs` is closed under tails. -/
theorem noTrailWs_tail {c : Char} {cs : List Char}
    (h : noTrailWs (c :: cs) = true) : noTrailWs cs = true := by
  cases cs with
  | nil => rfl
  | cons d ds => simpa [noTrailWs] using h

/-- One-step reduction of `goodRun`. -/
theorem goodRun_cons (c : Char) (cs : List Char) :
    goodRun (c :: cs) =
      ((if pyIsSpace c then (c == ' ') && noLeadWs cs else true) &&
        goodRun cs) := rfl

/-- One-step reduction of `stripR`. -/
theorem stripR_cons (c : Char) (cs : List Char) :
    stripR (c :: cs) =
      (match stripR cs with
       | [] => if pyIsSpace c then [] else [c]
       | r => c :: r) := rfl

/-- `stripR` leaves no trailing whitespace. -/
theorem noTrailWs_stripR (l : List Char) : noTrailWs (stripR l) = true := by
  induction l with
  | nil => rfl
  | cons c cs ih =>
    rw [stripR_cons]
    cases hr : stripR cs with
    | nil =>
      by_cases h : pyIsSpace c <;> simp [h, noTrailWs]
    | cons d ds =>
      rw [hr] at ih
      simpa [noTrailWs] using ih

/-- A nonempty `stripR` result keeps the original head. -/
theorem stripR_head (c : Char) (cs : List Char) :
    stripR (c :: cs) = [] ∨ ∃ r, stripR (c :: cs) = c :: r := by
  rw [stripR_cons]
  cases hr : stripR cs with
  | nil =>
    by_cases h : pyIsSpace c
    · left; simp [h]
    · right; exact ⟨[], by simp [h]⟩
  | cons d ds => right; exact ⟨d :: ds, rfl⟩

/-- `goodRun` survives stripping trailing whitespace. -/
theorem goodRun_stripR (l : List Char) (hg : goodRun l = true) :
    goodRun (stripR l) = true := by
  induction l with
  | nil => exact hg
  | cons c cs ih =>
    have hg2 := goodRun_tail hg
    rw [stripR_cons]
    cases hr : stripR cs with
    | nil =>
      by_cases h : pyIsSpace c <;> simp [h, goodRun]
    | cons d ds =>
      have ihr : goodRun (d :: ds) = true := by rw [← hr]; exact ih hg2
      cases cs with
      | nil => exact List.noConfusion hr
      | cons e cs2 =>
        rcases stripR_head e cs2 with h0 | ⟨r, h1⟩
        · rw [h0] at hr; exact absurd hr (by simp)
        · rw [h1] at hr
          injection hr with h2 h3
          subst h2
          subst h3
          show goodRun (c :: e :: r) = true
          have hgc := hg
          rw [goodRun_cons] at hgc ⊢
          by_cases h : pyIsSpace c
          · rw [if_pos h] at hgc ⊢
            simp only [Bool.and_eq_true] at hgc
            have hlead : noLeadWs (e :: r) = true := by
              simpa [noLeadWs] using hgc.1.2
            simp [hgc.1.1, hlead, ihr]
          · rw [if_neg h] at hgc ⊢
            simp [ihr]

/-- `stripR` preserves the absence of leading whitespace. -/
theorem noLeadWs_stripR (l : List Char) (h : noLeadWs l = true) :
    noLeadWs (stripR l) = true := by
  cases l with
  | nil => rfl
  | cons c cs =>
    rcases stripR_head c cs with h0 | ⟨r, h1⟩
    · rw [h0]; rfl
    · rw [h1]; simpa [noLeadWs] using h

/-- With no leading whitespace, dropping the whitespace prefix is the
identity. -/
theorem dropWhile_fixed (l : List Char) (h : noLeadWs l = true) :
    l.dropWhile pyIsSpace = l := by
  cases l with
  | nil => rfl
  | cons c cs =>
    simp only [noLeadWs, Bool.not_eq_true'] at h
    simp [List.dropWhile_cons, h]

/-- With no trailing whitespace, `stripR` is the identity. -/
theorem stripR_fixed (l : List Char) (h : noTrailWs l = true) : stripR l = l := by
  induction l with
  | nil => rfl
  | cons c cs ih =>
    cases cs with
    | nil =>
      simp only [noTrailWs, Bool.not_eq_true'] at h
      simp [stripR, h]
    | cons d ds =>
      have h2 := noTrailWs_tail h
      rw [stripR_cons, ih h2]

/-- The whitespace-normalization step of `_normalize_text` is idempotent. -/
theorem collapseWs_idem (s : String) : collapseWs (collapseWs s) = collapseWs s := by
  unfold collapseWs pyStripList stripL
  show String.mk (stripR ((collapseAux false
    (stripR ((collapseAux false s.data).dropWhile pyIsSpace))).dropWhile
      pyIsSpace)) = _
  have hg : goodRun (stripR ((collapseAux false s.data).dropWhile pyIsSpace))
      = true :=
    goodRun_stripR _ (goodRun_dropWhile _ (goodRun_collapseAux _ false))
  have hlead : noLeadWs (stripR ((collapseAux false s.data).dropWhile pyIsSpace))
      = true :=
    noLeadWs_stripR _ (noLeadWs_dropWhile _)
  have htrail : noTrailWs (stripR ((collapseAux false s.data).dropWhile
      pyIsSpace)) = true :=
    noTrailWs_stripR _
  rw [collapseAux_fixed _ false hg (fun hx => Bool.noConfusion hx),
      dropWhile_fixed _ hlead, stripR_fixed _ htrail]

/-- Claim C10: `_normalize_text` is idempotent under the configured
settings, given the Unicode-standard properties of the library maps it
composes: NFKC is idempotent and fixes the normalized output, and
lowercasing is idempotent and commutes with whitespace collapse.  The
whitespace-collapse step itself is proved idempotent above
(`collapseWs_idem`). -/
theorem C10_normalize_idempotent (env : PyEnv) (s : KwSettings)
    (hn : ∀ x, env.nfkc (env.nfkc x) = env.nfkc x)
    (hl : ∀ x, env.pyLower (env.pyLower x) = env.pyLower x)
    (hlw : ∀ x, env.pyLower (collapseWs x) = collapseWs (env.pyLower x))
    (hstab : ∀ x, env.nfkc (normalizeText env s x) = normalizeText env s x)
    (x : String) :
    normalizeText env s (normalizeText env s x) = normalizeText env s x := by
  cases hw : s.normalize_whitespace <;> cases hc : s.case_insensitive <;>
    simp only [normalizeText, hw, hc, if_true, if_false,
      Bool.false_eq_true] at hstab ⊢
  · exact hstab x
  · rw [hstab x, hl]
  · rw [hstab x, collapseWs_idem]
  · rw [hstab x, hlw (env.pyLower (collapseWs (env.nfkc x))), hl,
      ← hlw (collapseWs (env.nfkc x)), collapseWs_idem]

/-- Witness for C10 with identity Unicode maps on a concrete input. -/
theorem C10_witness :
    normalizeText egEnvId ⟨true, true, 3000000⟩
      (normalizeText egEnvId ⟨true, true, 3000000⟩ "A  b") =
      normalizeText egEnvId ⟨true, true, 3000000⟩ "A  b" :=
  C10_normalize_idempotent egEnvId ⟨true, true, 3000000⟩ (fun _ => rfl)
    (fun _ => rfl) (fun _ => rfl) (fun _ => rfl) "A  b"

end GovPulse
